import Mathlib

/-!
# Verification of the FullRightTouch dispatch/assignment engine

Shallow embedding of the job-broadcast and assignment controllers of the
FullRightTouch repository (Node/Express/Mongoose), together with proofs of
the claims of the specification about them.

Embedded source files:
* `src/Controllers/technicianBroadcastController.js` — `respondToJob` (the
  race-safe assignment committer) and its precondition chain.
* `src/unnamed/part_000` — the broadcast controller variant holding
  `getMyJobs` (geo-filtered passive feed) and `getNearbyJobs`
  (distance-based selector with location resolution).
* `src/Controllers/technician.js` — `updateTechnician` (go-online guard),
  `updateTechnicianStatus` and `updateTechnicianTraining` (admin paths that
  force a technician offline).

MongoDB collections are embedded as Lean lists; `findOne` is `List.find?`,
`updateOne` updates the first matching element, `updateMany` maps a
conditional update over the list, and `findOneAndUpdate` combines
`List.find?` with a first-match update.  A Mongoose transaction is
embedded by threading the session state explicitly: an abort returns the
pre-transaction store unchanged.
-/

/-- Lifecycle status of a `ServiceBooking` (the `status` enum used by the
controllers). -/
inductive JobStatus
  | requested
  | broadcasted
  | accepted
  | on_the_way
  | reached
  | in_progress
  | completed
  | cancelled
deriving DecidableEq, Repr

/-- State of a `JobBroadcast` row (`status` field: "sent" / "accepted" /
"expired"). -/
inductive BcStatus
  | sent
  | accepted
  | expired
deriving DecidableEq, Repr

/-- The `TechnicianProfile.workStatus` enum
(`TECHNICIAN_STATUSES = ["pending","trained","approved","suspended","deleted"]`). -/
inductive WorkStatus
  | pending
  | trained
  | approved
  | suspended
  | deleted
deriving DecidableEq, Repr

/-- The `TechnicianKyc.verificationStatus` enum (`["pending","approved","rejected"]`). -/
inductive VerifStatus
  | pending
  | approved
  | rejected
deriving DecidableEq, Repr

/-- A GeoJSON point: `coordinates = [longitude, latitude]`. -/
structure GeoPoint where
  lng : ℚ
  lat : ℚ
deriving DecidableEq, Repr

/-- A `ServiceBooking` document, restricted to the fields the embedded
controllers read or write. -/
structure Booking where
  id : ℕ
  status : JobStatus
  technicianId : Option ℕ
  assignedAt : Option ℕ
  location : Option GeoPoint
deriving DecidableEq, Repr

/-- A `JobBroadcast` document: the (job, technician, state) ledger row. -/
structure Broadcast where
  bookingId : ℕ
  technicianId : ℕ
  status : BcStatus
deriving DecidableEq, Repr

/-- A `TechnicianProfile` document restricted to the fields the embedded
controllers use (`availability.isOnline` is flattened to `isOnline`). -/
structure Technician where
  id : ℕ
  workStatus : WorkStatus
  trainingCompleted : Bool
  isOnline : Bool
  location : Option GeoPoint
deriving DecidableEq, Repr

/-- A `TechnicianKyc` document restricted to the fields read by the
activation / go-online checks. -/
structure Kyc where
  technicianId : ℕ
  verificationStatus : VerifStatus
  bankVerified : Bool
deriving DecidableEq, Repr

/-- The shared MongoDB store: one list per collection. -/
structure DB where
  bookings : List Booking
  broadcasts : List Broadcast
  technicians : List Technician
  kycs : List Kyc
deriving DecidableEq, Repr

/-- Embeds `updateOne` / first-match update: rewrites the first element satisfying
`p` with `f`, leaving everything else untouched. -/
def updateFirst {α : Type} (p : α → Bool) (f : α → α) : List α → List α
  | [] => []
  | x :: xs => if p x then f x :: xs else x :: updateFirst p f xs

/-- Embeds `updateMany`: rewrites every element satisfying `p` with `f`. -/
def updateAll {α : Type} (p : α → Bool) (f : α → α) (l : List α) : List α :=
  l.map fun x => if p x then f x else x

/-- The "active job" statuses used by the busy check:
`["accepted", "on_the_way", "reached", "in_progress"]`. -/
def JobStatus.isActive : JobStatus → Bool
  | .accepted => true
  | .on_the_way => true
  | .reached => true
  | .in_progress => true
  | _ => false

/-- Busy check of `respondToJob`: `ServiceBooking.findOne({technicianId,
status: {$in: ["accepted","on_the_way","reached","in_progress"]}})`. -/
def busyPred (techId : ℕ) (b : Booking) : Bool :=
  b.technicianId == some techId && b.status.isActive

/-- Offer check of `respondToJob`: `JobBroadcast.findOne({bookingId,
technicianId, status: "sent"})`. -/
def offerPred (id techId : ℕ) (br : Broadcast) : Bool :=
  br.bookingId == id && br.technicianId == techId && br.status == .sent

/-- Match condition of the conditional assignment update in `respondToJob`:
`{ _id: id, status: { $in: ["requested", "broadcasted"] }, technicianId: null }`. -/
def openForAssign (id : ℕ) (b : Booking) : Bool :=
  b.id == id && (b.status == .requested || b.status == .broadcasted) &&
    b.technicianId == none

/-- Update clause of the conditional assignment:
`{ technicianId, status: "accepted", assignedAt: new Date() }`. -/
def assignBooking (techId now : ℕ) (b : Booking) : Booking :=
  { b with technicianId := some techId, status := .accepted, assignedAt := some now }

/-- Embeds `JobBroadcast.updateOne({bookingId, technicianId}, {status: "accepted"})`:
the broadcast row of the accepting technician is marked accepted. -/
def markWinner (id techId : ℕ) (l : List Broadcast) : List Broadcast :=
  updateFirst (fun br => br.bookingId == id && br.technicianId == techId)
    (fun br => { br with status := .accepted }) l

/-- Embeds `JobBroadcast.updateMany({bookingId, technicianId: {$ne}}, {status:
"expired"})`: every sibling broadcast row is marked expired. -/
def expireOthers (id techId : ℕ) (l : List Broadcast) : List Broadcast :=
  updateAll (fun br => br.bookingId == id && br.technicianId != techId)
    (fun br => { br with status := .expired }) l

/-- The ledger settlement performed after a successful assignment:
mark the winner row accepted, then expire every sibling row. -/
def settleBroadcasts (id techId : ℕ) (l : List Broadcast) : List Broadcast :=
  expireOthers id techId (markWinner id techId l)

/-- Outcome of `respondToJob`, tagged by the distinct responses the
controller produces. -/
inductive RespondResult
  | busy
  | notOffered
  | invalidStatus
  | alreadyTaken
  | accepted (booking : Booking) (losers : List ℕ)
  | serverError
deriving DecidableEq, Repr

/-- HTTP status code attached to each `respondToJob` outcome. -/
def RespondResult.http : RespondResult → ℕ
  | .busy => 409
  | .notOffered => 403
  | .invalidStatus => 400
  | .alreadyTaken => 409
  | .accepted _ _ => 200
  | .serverError => 500

/-- JS `a || b` over optional strings (empty string is falsy):
`(status || response || "")`. -/
def firstTruthy (a b : Option String) : String :=
  match a with
  | some s => if s = "" then b.getD "" else s
  | none => b.getD ""

/-- JS `toLowerCase()`, embedded as a per-character map over the string
data (the action strings compared here are ASCII). -/
def strLower (s : String) : String := ⟨s.data.map Char.toLower⟩

/-- Embeds `finalStatus = (status || response || "").toLowerCase()`. -/
def finalStatusOf (status response : Option String) : String :=
  strLower (firstTruthy status response)

/-- The technician IDs collected for loser notification: the remaining
`sent` rows for the job held by other technicians, read after the row of
the winner was marked accepted. -/
def losersOf (id techId : ℕ) (l : List Broadcast) : List ℕ :=
  ((markWinner id techId l).filter
    (fun br => br.bookingId == id && br.technicianId != techId &&
      br.status == .sent)).map (·.technicianId)

/-- Embedding of `respondToJob` from `src/Controllers/technicianBroadcastController.js`
(lines 74–159).  Steps, in source order: busy check (active job → 409);
sent-broadcast check (→ 403); action validation (→ 400); conditional
assignment `findOneAndUpdate` (no match → 409 "already taken"); the
broadcast of the winner marked accepted; loser IDs collected; siblings
expired; commit.  Every store write carries the session, so an abort
returns the input store unchanged. -/
def respondToJob (db : DB) (id techId : ℕ) (status response : Option String)
    (now : ℕ) : RespondResult × DB :=
  match db.bookings.find? (busyPred techId) with
  | some _ => (.busy, db)
  | none =>
    match db.broadcasts.find? (offerPred id techId) with
    | none => (.notOffered, db)
    | some _ =>
      let fs := finalStatusOf status response
      if fs ≠ "accepted" ∧ fs ≠ "accept" then (.invalidStatus, db)
      else
        match db.bookings.find? (openForAssign id) with
        | none => (.alreadyTaken, db)
        | some b =>
          (.accepted (assignBooking techId now b) (losersOf id techId db.broadcasts),
           { db with
              bookings := updateFirst (openForAssign id) (assignBooking techId now) db.bookings,
              broadcasts := settleBroadcasts id techId db.broadcasts })

/-- Embedding of `respondToJob` instrumented with a failure oracle: `failAt = some k`
makes the `k`-th store operation throw.  Operations are numbered in source
order: 0 busy query, 1 broadcast query, 2 conditional assignment,
3 winner update, 4 loser query, 5 sibling update, 6 commit.  A throw at
any of 0–6 lands in the catch block, which aborts the transaction, so the
observable store is the input store.  A throw at 7 models a synchronous
post-commit notification failure: the transaction is already committed, so
the store keeps the committed state while the response is a 500. -/
def respondToJobAt (db : DB) (id techId : ℕ) (status response : Option String)
    (now : ℕ) (failAt : Option ℕ) : RespondResult × DB :=
  if failAt = some 0 then (.serverError, db) else
  match db.bookings.find? (busyPred techId) with
  | some _ => (.busy, db)
  | none =>
    if failAt = some 1 then (.serverError, db) else
    match db.broadcasts.find? (offerPred id techId) with
    | none => (.notOffered, db)
    | some _ =>
      let fs := finalStatusOf status response
      if fs ≠ "accepted" ∧ fs ≠ "accept" then (.invalidStatus, db)
      else
        if failAt = some 2 then (.serverError, db) else
        match db.bookings.find? (openForAssign id) with
        | none => (.alreadyTaken, db)
        | some b =>
          if failAt = some 3 then (.serverError, db) else
          if failAt = some 4 then (.serverError, db) else
          if failAt = some 5 then (.serverError, db) else
          if failAt = some 6 then (.serverError, db) else
          let committed : DB :=
            { db with
                bookings := updateFirst (openForAssign id) (assignBooking techId now) db.bookings,
                broadcasts := settleBroadcasts id techId db.broadcasts }
          if failAt = some 7 then (.serverError, committed) else
          (.accepted (assignBooking techId now b) (losersOf id techId db.broadcasts),
           committed)

/-- Earth radius constant used by the controllers: `6378100` meters;
a radius of `m` meters corresponds to `m / 6378100` radians on the
spherical model. -/
def metersToRadians (m : ℚ) : ℚ := m / 6378100

/-- The fixed geo-filter radius of the passive `getMyJobs` feed
(`10000 / 6378100 // 10km in radians` in `src/unnamed/part_000`). -/
def myJobsRadiusRadians : ℚ := 10000 / 6378100

/-- Embeds `maxDist = radius ? Number(radius) : 20000` of `getNearbyJobs`
(`none` embeds an absent or falsy radius parameter). -/
def nearbyMaxDist (radius : Option ℚ) : ℚ := radius.getD 20000

/-- The booking IDs of the `sent` broadcast rows of a technician
(`JobBroadcast.find({technicianId, status: "sent"}).select("bookingId")`). -/
def sentBookingIds (db : DB) (techId : ℕ) : List ℕ :=
  (db.broadcasts.filter fun br =>
    br.technicianId == techId && br.status == .sent).map (·.bookingId)

/-- The stored location of a technician profile, `none` when the profile is
missing or carries no valid GeoJSON point. -/
def storedLocation (db : DB) (techId : ℕ) : Option GeoPoint :=
  (db.technicians.find? fun t => t.id == techId).bind (·.location)

/-- Geo filter of `getMyJobs` (`src/unnamed/part_000` lines 88–105): when
the technician has a stored point, a booking passes if it has no location
(`{location: {$exists: false}}`) or lies within 10 km on the spherical
model; when the technician has no stored point, no geo filter is applied.
`dist` is the spherical distance in radians. -/
def myJobsGeoOk (dist : GeoPoint → GeoPoint → ℚ) (techLoc : Option GeoPoint)
    (b : Booking) : Bool :=
  match techLoc with
  | none => true
  | some c =>
    match b.location with
    | none => true
    | some l => decide (dist c l ≤ myJobsRadiusRadians)

/-- The booking query of `getMyJobs` (`src/unnamed/part_000` lines
107–112): bookings among the `sent` broadcasts of the technician, with
`status: "broadcasted"`, `technicianId: null`, and the geo filter.  The
`createdAt` sort and the population joins are presentational and elided. -/
def getMyJobsSelect (dist : GeoPoint → GeoPoint → ℚ) (db : DB) (techId : ℕ) :
    List Booking :=
  let ids := sentBookingIds db techId
  db.bookings.filter fun b =>
    ids.contains b.id && b.status == .broadcasted && b.technicianId == none &&
      myJobsGeoOk dist (storedLocation db techId) b

/-- Location resolution of `getNearbyJobs` (`src/unnamed/part_000` lines
234–257): explicit finite latitude/longitude when both parse
(`some q` embeds a finite `Number(...)` result, `none` an absent or
non-finite one); otherwise the stored point of the technician
(GeoJSON order `[longitude, latitude]`); otherwise a 400 error. -/
def resolveNearbyLocation (db : DB) (techId : ℕ)
    (latitude longitude : Option ℚ) : Except (ℕ × String) GeoPoint :=
  match latitude, longitude with
  | some lat, some lng => .ok ⟨lng, lat⟩
  | _, _ =>
    match storedLocation db techId with
    | some loc => .ok loc
    | none => .error (400,
        "Location not found. Please provide latitude/longitude or update your profile location.")

/-- The `$geoNear` selection of `getNearbyJobs` (`src/unnamed/part_000`
lines 259–291): empty result when the technician has no `sent` broadcasts;
otherwise the bookings among those broadcasts with `status: "broadcasted"`,
`technicianId: null`, within `maxDist` meters of the resolved point.
`$geoNear` only matches documents carrying a location, so bookings without
one are excluded.  The distance sort and the lookup stages are
presentational and elided. -/
def getNearbyJobsSelect (dist : GeoPoint → GeoPoint → ℚ) (db : DB)
    (techId : ℕ) (posn : GeoPoint) (radius : Option ℚ) : List Booking :=
  let ids := sentBookingIds db techId
  if ids.isEmpty then []
  else
    db.bookings.filter fun b =>
      (match b.location with
       | none => false
       | some l => decide (dist posn l ≤ metersToRadians (nearbyMaxDist radius))) &&
      ids.contains b.id && b.status == .broadcasted && b.technicianId == none

/-- Modelled from the spec: `recordBroadcast(jobId, technicianId)` of the
Broadcast Ledger lives in `src/Utils/technicianMatching.js`, which is not
among the provided sources.  Per §4.3 it records a `sent` row for the
pair and is idempotent per (job, technician): re-invoking it for a
technician with an existing `sent` row must not create a duplicate. -/
def recordBroadcast (db : DB) (jobId techId : ℕ) : DB :=
  if db.broadcasts.any (fun br =>
      br.bookingId == jobId && br.technicianId == techId && br.status == .sent)
  then db
  else { db with broadcasts := db.broadcasts ++ [⟨jobId, techId, .sent⟩] }

/-- Number of `sent` ledger rows for a (job, technician) pair. -/
def sentCount (db : DB) (jobId techId : ℕ) : ℕ :=
  (db.broadcasts.filter fun br =>
    br.bookingId == jobId && br.technicianId == techId && br.status == .sent).length

/-- Outcome of the profile/admin update operations. -/
inductive UpdateOutcome
  | ok
  | rejected (msg : String)
deriving DecidableEq, Repr

/-- The `availability.isOnline` branch of `updateTechnician`
(`src/Controllers/technician.js` lines 544–559).  A request to go online
throws inside the transaction — leaving the store unchanged — unless
training is completed, `workStatus === "approved"`, and a KYC record with
`verificationStatus === "approved"` exists; going offline is
unconditional. -/
def setOnlineRequest (db : DB) (techId : ℕ) (reqOnline : Bool) :
    UpdateOutcome × DB :=
  match db.technicians.find? (fun t => t.id == techId) with
  | none => (.rejected "Technician not found", db)
  | some tech =>
    if reqOnline then
      if !tech.trainingCompleted then
        (.rejected "Training must be completed before going online.", db)
      else if tech.workStatus != .approved then
        (.rejected "Only approved technicians can go online.", db)
      else
        match db.kycs.find? (fun k => k.technicianId == techId) with
        | none => (.rejected "Your KYC must be approved before going online.", db)
        | some kyc =>
          if kyc.verificationStatus != .approved then
            (.rejected "Your KYC must be approved before going online.", db)
          else
            let techs := updateFirst (fun t => t.id == techId)
              (fun t => { t with isOnline := true }) db.technicians
            (.ok, { db with technicians := techs })
    else
      let techs := updateFirst (fun t => t.id == techId)
        (fun t => { t with isOnline := false }) db.technicians
      (.ok, { db with technicians := techs })

/-- Embedding of `updateTechnicianStatus` (`src/Controllers/technician.js` lines
624–692, owner-only; the role and ObjectId validations are outside the
embedded state change).  `trainingCompleted`, when supplied, is assigned
and promotes `workStatus` to `trained` when `true`; `workStatus`, when
supplied, is assigned and forces `availability.isOnline = false` when it
is `suspended`. -/
def updateTechnicianStatus (db : DB) (techId : ℕ)
    (trainingCompleted : Option Bool) (workStatus : Option WorkStatus) :
    UpdateOutcome × DB :=
  match db.technicians.find? (fun t => t.id == techId) with
  | none => (.rejected "Technician not found", db)
  | some tech =>
    let t1 :=
      match trainingCompleted with
      | none => tech
      | some v =>
        let t := { tech with trainingCompleted := v }
        if v then { t with workStatus := .trained } else t
    let t2 :=
      match workStatus with
      | none => t1
      | some ws =>
        let t := { t1 with workStatus := ws }
        if ws == .suspended then { t with isOnline := false } else t
    let techs := updateFirst (fun t => t.id == techId) (fun _ => t2) db.technicians
    (.ok, { db with technicians := techs })

/-- Embedding of `updateTechnicianTraining` (`src/Controllers/technician.js` lines
800–869, owner-only).  Assigns `trainingCompleted`; when it is set to
`false` and the technician is online, forces `availability.isOnline =
false`. -/
def updateTechnicianTraining (db : DB) (techId : ℕ)
    (trainingCompleted : Bool) : UpdateOutcome × DB :=
  match db.technicians.find? (fun t => t.id == techId) with
  | none => (.rejected "Technician not found", db)
  | some tech =>
    let t1 := { tech with trainingCompleted := trainingCompleted }
    let t2 :=
      if !trainingCompleted && t1.isOnline then { t1 with isOnline := false }
      else t1
    let techs := updateFirst (fun t => t.id == techId) (fun _ => t2) db.technicians
    (.ok, { db with technicians := techs })

/-- Ledger rows of a job currently in state `accepted`. -/
def acceptedRowsFor (l : List Broadcast) (jobId : ℕ) : List Broadcast :=
  l.filter fun br => br.bookingId == jobId && br.status == .accepted

/-- Ledger rows of a (job, technician) pair, in any state. -/
def pairRows (l : List Broadcast) (jobId techId : ℕ) : List Broadcast :=
  l.filter fun br => br.bookingId == jobId && br.technicianId == techId

/-! ### Concrete fixtures used by witnesses and counterexamples -/

/-- An open broadcasted booking, unassigned, without a location. -/
def bk0 : Booking := ⟨1, .broadcasted, none, none, none⟩

/-- A requested (not yet broadcasted) booking at the origin. -/
def bkReq : Booking := ⟨2, .requested, none, none, some ⟨0, 0⟩⟩

/-- A booking in progress, assigned to technician 7. -/
def bkBusy : Booking := ⟨9, .in_progress, some 7, some 1, none⟩

/-- An ineligible technician: not approved, training incomplete, offline. -/
def techBad : Technician := ⟨7, .pending, false, false, none⟩

/-- An eligible offline technician (training done, approved). -/
def techOk : Technician := ⟨7, .approved, true, false, none⟩

/-- An online, approved technician located at the origin. -/
def techOn : Technician := ⟨7, .approved, true, true, some ⟨0, 0⟩⟩

/-- An approved KYC record for technician 7. -/
def kycOk : Kyc := ⟨7, .approved, true⟩

/-- Store with one open booking offered to technician 7. -/
def db0 : DB := ⟨[bk0], [⟨1, 7, .sent⟩], [], []⟩

/-- Store where the open booking was offered to technicians 7 and 8. -/
def dbC2 : DB := ⟨[bk0], [⟨1, 7, .sent⟩, ⟨1, 8, .sent⟩], [], []⟩

/-- Store where the offered technician 7 is ineligible. -/
def db4 : DB := ⟨[bk0], [⟨1, 7, .sent⟩], [techBad], []⟩

/-- Store where technician 7 already holds an active job. -/
def dbBusy : DB := ⟨[bkBusy, bk0], [⟨1, 7, .sent⟩], [], []⟩

/-- Store with an open booking but no broadcast row for technician 7. -/
def dbNoOffer : DB := ⟨[bk0], [], [], []⟩

/-- Store with a requested booking at the origin offered to an online
technician at the origin. -/
def dbC5 : DB := ⟨[bkReq], [⟨2, 7, .sent⟩], [techOn], []⟩

/-- Store holding an eligible technician with approved KYC. -/
def dbC7 : DB := ⟨[], [], [techOk], [kycOk]⟩

/-- Store holding an ineligible technician and no KYC record. -/
def dbC7b : DB := ⟨[], [], [techBad], []⟩

/-- The store `dbC7` after its technician went online. -/
def dbC7on : DB := ⟨[], [], [⟨7, .approved, true, true, none⟩], [kycOk]⟩

/-- Store holding an online approved technician with completed training. -/
def dbT : DB := ⟨[], [], [⟨7, .approved, true, true, none⟩], []⟩

/-- Degenerate spherical distance used to instantiate counterexamples:
every pair of points is at distance zero. -/
def dist0 : GeoPoint → GeoPoint → ℚ := fun _ _ => 0

/-! ### Helper lemmas -/

theorem finalStatus_accept : finalStatusOf (some "accept") none = "accept" := by
  decide

theorem updateFirst_eq_self {α : Type} (p : α → Bool) (f : α → α) (l : List α)
    (h : ∀ x ∈ l, p x = false) : updateFirst p f l = l := by
  induction l with
  | nil => rfl
  | cons x t ih =>
    have hx := h x (List.mem_cons_self x t)
    have ht : ∀ y ∈ t, p y = false := fun y hy => h y (List.mem_cons.mpr (Or.inr hy))
    simp [updateFirst, hx, ih ht]

theorem settle_cons (id techId : ℕ) (x : Broadcast) (t : List Broadcast) :
    settleBroadcasts id techId (x :: t) =
      if x.bookingId == id && x.technicianId == techId then
        { x with status := .accepted } :: expireOthers id techId t
      else
        (if x.bookingId == id && x.technicianId != techId then
            { x with status := .expired } else x) :: settleBroadcasts id techId t := by
  by_cases hP : (x.bookingId == id && x.technicianId == techId) = true
  · have hb : x.bookingId = id := by
      have := hP; simp only [Bool.and_eq_true, beq_iff_eq] at this; exact this.1
    have ht : x.technicianId = techId := by
      have := hP; simp only [Bool.and_eq_true, beq_iff_eq] at this; exact this.2
    simp [settleBroadcasts, markWinner, expireOthers, updateFirst, updateAll, hP, hb, ht]
  · simp only [settleBroadcasts, markWinner, expireOthers, updateFirst]
    rw [if_neg hP, if_neg hP]
    simp [updateAll]

theorem expireOthers_cons (id techId : ℕ) (x : Broadcast) (t : List Broadcast) :
    expireOthers id techId (x :: t) =
      (if x.bookingId == id && x.technicianId != techId then
        { x with status := .expired } else x) :: expireOthers id techId t := by
  simp [expireOthers, updateAll]

theorem pair_false_of_unmatched (x : Broadcast) (id techId : ℕ)
    (hP : ¬((x.bookingId == id && x.technicianId == techId) = true))
    (hQ : ¬((x.bookingId == id && x.technicianId != techId) = true)) :
    (x.bookingId == id) = false := by
  cases hb : (x.bookingId == id) <;> cases ht : (x.technicianId == techId) <;>
    simp_all [bne]

theorem expireOthers_accepted_other_jobs (id techId j : ℕ) (hj : j ≠ id)
    (t : List Broadcast) :
    acceptedRowsFor (expireOthers id techId t) j = acceptedRowsFor t j := by
  induction t with
  | nil => rfl
  | cons x t ih =>
    rw [expireOthers_cons]
    simp only [acceptedRowsFor] at ih ⊢
    by_cases hQ : (x.bookingId == id && x.technicianId != techId) = true
    · have hb : x.bookingId = id := by
        have := hQ; simp only [Bool.and_eq_true, beq_iff_eq] at this; exact this.1
      have hbj : (x.bookingId == j) = false := by simp [hb, Ne.symm hj]
      simp [List.filter_cons, hQ, hbj, ih]
    · simp [List.filter_cons, hQ, ih]

theorem expireOthers_no_pair_accepted (id techId : ℕ) (t : List Broadcast)
    (h : ∀ x ∈ t, (x.bookingId == id && x.technicianId == techId) = false) :
    acceptedRowsFor (expireOthers id techId t) id = [] := by
  induction t with
  | nil => rfl
  | cons x t ih =>
    have hx := h x (List.mem_cons_self x t)
    have ht : ∀ y ∈ t, (y.bookingId == id && y.technicianId == techId) = false :=
      fun y hy => h y (List.mem_cons.mpr (Or.inr hy))
    rw [expireOthers_cons]
    have ihh := ih ht
    simp only [acceptedRowsFor] at ihh ⊢
    by_cases hQ : (x.bookingId == id && x.technicianId != techId) = true
    · simp [List.filter_cons, hQ, ihh]
    · have hb : (x.bookingId == id) = false :=
        pair_false_of_unmatched x id techId (by simp_all) hQ
      simp [List.filter_cons, hQ, hb, ihh]

theorem expireOthers_status (id techId : ℕ) (t : List Broadcast) :
    ∀ br ∈ expireOthers id techId t, br.bookingId = id →
      br.technicianId ≠ techId → br.status = .expired := by
  induction t with
  | nil => simp [expireOthers, updateAll]
  | cons x t ih =>
    rw [expireOthers_cons]
    intro br hbr hbid htech
    rcases List.mem_cons.mp hbr with h1 | h2
    · by_cases hQ : (x.bookingId == id && x.technicianId != techId) = true
      · rw [if_pos hQ] at h1; rw [h1]
      · rw [if_neg hQ] at h1
        subst h1
        exact absurd (by simp [bne, hbid, htech]) hQ
    · exact ih br h2 hbid htech

theorem expireOthers_no_sent (id techId : ℕ) (t : List Broadcast)
    (h : ∀ x ∈ t, (x.bookingId == id && x.technicianId == techId) = false) :
    ∀ br ∈ expireOthers id techId t, br.bookingId = id → br.status ≠ .sent := by
  induction t with
  | nil => simp [expireOthers, updateAll]
  | cons x t ih =>
    have hx := h x (List.mem_cons_self x t)
    have ht : ∀ y ∈ t, (y.bookingId == id && y.technicianId == techId) = false :=
      fun y hy => h y (List.mem_cons.mpr (Or.inr hy))
    rw [expireOthers_cons]
    intro br hbr hbid
    rcases List.mem_cons.mp hbr with h1 | h2
    · by_cases hQ : (x.bookingId == id && x.technicianId != techId) = true
      · rw [if_pos hQ] at h1; rw [h1]; simp
      · rw [if_neg hQ] at h1
        subst h1
        have hb : (br.bookingId == id) = false :=
          pair_false_of_unmatched br id techId (by simp_all) hQ
        simp [hbid] at hb
    · exact ih ht br h2 hbid

theorem no_pair_in_tail (id techId : ℕ) (x : Broadcast) (t : List Broadcast)
    (hP : (x.bookingId == id && x.technicianId == techId) = true)
    (hUniq : ((x :: t).filter fun br =>
        br.bookingId == id && br.technicianId == techId).length ≤ 1) :
    ∀ y ∈ t, (y.bookingId == id && y.technicianId == techId) = false := by
  intro y hy
  by_contra hcon
  have hc : (y.bookingId == id && y.technicianId == techId) = true := by
    cases hv : (y.bookingId == id && y.technicianId == techId) <;> simp_all
  have hmem : y ∈ t.filter (fun br => br.bookingId == id && br.technicianId == techId) :=
    List.mem_filter.mpr ⟨hy, hc⟩
  have hpos : 0 < (t.filter (fun br =>
      br.bookingId == id && br.technicianId == techId)).length :=
    List.length_pos.mpr (List.ne_nil_of_mem hmem)
  rw [List.filter_cons, if_pos hP, List.length_cons] at hUniq
  omega

theorem settle_accepted_pair (id techId : ℕ) (l : List Broadcast)
    (hEx : ∃ x ∈ l, (x.bookingId == id && x.technicianId == techId) = true)
    (hUniq : (l.filter fun br =>
        br.bookingId == id && br.technicianId == techId).length ≤ 1) :
    acceptedRowsFor (settleBroadcasts id techId l) id = [⟨id, techId, .accepted⟩] := by
  induction l with
  | nil => simp at hEx
  | cons x t ih =>
    rw [settle_cons]
    by_cases hP : (x.bookingId == id && x.technicianId == techId) = true
    · have hb : x.bookingId = id := by
        have := hP; simp only [Bool.and_eq_true, beq_iff_eq] at this; exact this.1
      have htc : x.technicianId = techId := by
        have := hP; simp only [Bool.and_eq_true, beq_iff_eq] at this; exact this.2
      have hno := no_pair_in_tail id techId x t hP hUniq
      have htail := expireOthers_no_pair_accepted id techId t hno
      have hhead : ({ x with status := BcStatus.accepted } : Broadcast) =
          ⟨id, techId, .accepted⟩ := by
        cases x; simp_all
      rw [if_pos hP, hhead]
      simp only [acceptedRowsFor] at htail ⊢
      simp [List.filter_cons, htail]
    · rw [if_neg hP]
      have hEx' : ∃ y ∈ t, (y.bookingId == id && y.technicianId == techId) = true := by
        obtain ⟨y, hy, hc⟩ := hEx
        rcases List.mem_cons.mp hy with h1 | h2
        · subst h1; exact absurd hc hP
        · exact ⟨y, h2, hc⟩
      have hUniq' : (t.filter fun br =>
          br.bookingId == id && br.technicianId == techId).length ≤ 1 := by
        rw [List.filter_cons] at hUniq
        simpa [hP] using hUniq
      have ihh := ih hEx' hUniq'
      simp only [acceptedRowsFor] at ihh ⊢
      by_cases hQ : (x.bookingId == id && x.technicianId != techId) = true
      · simp [List.filter_cons, hQ, ihh]
      · have hb : (x.bookingId == id) = false := pair_false_of_unmatched x id techId hP hQ
        simp [List.filter_cons, hQ, hb, ihh]

theorem settle_no_sent (id techId : ℕ) (l : List Broadcast)
    (hUniq : (l.filter fun br =>
        br.bookingId == id && br.technicianId == techId).length ≤ 1) :
    ∀ br ∈ settleBroadcasts id techId l, br.bookingId = id → br.status ≠ .sent := by
  induction l with
  | nil => simp [settleBroadcasts, markWinner, expireOthers, updateFirst, updateAll]
  | cons x t ih =>
    rw [settle_cons]
    intro br hbr hbid
    by_cases hP : (x.bookingId == id && x.technicianId == techId) = true
    · rw [if_pos hP] at hbr
      rcases List.mem_cons.mp hbr with h1 | h2
      · subst h1; simp
      · exact expireOthers_no_sent id techId t
          (no_pair_in_tail id techId x t hP hUniq) br h2 hbid
    · rw [if_neg hP] at hbr
      have hUniq' : (t.filter fun br =>
          br.bookingId == id && br.technicianId == techId).length ≤ 1 := by
        rw [List.filter_cons] at hUniq
        simpa [hP] using hUniq
      rcases List.mem_cons.mp hbr with h1 | h2
      · by_cases hQ : (x.bookingId == id && x.technicianId != techId) = true
        · rw [if_pos hQ] at h1; subst h1; simp
        · rw [if_neg hQ] at h1; subst h1
          have hb := pair_false_of_unmatched br id techId hP hQ
          simp [hbid] at hb
      · exact ih hUniq' br h2 hbid

theorem settle_others_expired (id techId : ℕ) (l : List Broadcast) :
    ∀ br ∈ settleBroadcasts id techId l, br.bookingId = id →
      br.technicianId ≠ techId → br.status = .expired := by
  induction l with
  | nil => simp [settleBroadcasts, markWinner, expireOthers, updateFirst, updateAll]
  | cons x t ih =>
    rw [settle_cons]
    intro br hbr hbid htech
    by_cases hP : (x.bookingId == id && x.technicianId == techId) = true
    · rw [if_pos hP] at hbr
      rcases List.mem_cons.mp hbr with h1 | h2
      · have htc : x.technicianId = techId := by
          have := hP; simp only [Bool.and_eq_true, beq_iff_eq] at this; exact this.2
        subst h1
        simp [htc] at htech
      · exact expireOthers_status id techId t br h2 hbid htech
    · rw [if_neg hP] at hbr
      rcases List.mem_cons.mp hbr with h1 | h2
      · by_cases hQ : (x.bookingId == id && x.technicianId != techId) = true
        · rw [if_pos hQ] at h1; subst h1; rfl
        · rw [if_neg hQ] at h1; subst h1
          have hb := pair_false_of_unmatched br id techId hP hQ
          simp [hbid] at hb
      · exact ih br h2 hbid htech

theorem settle_accepted_other_jobs (id techId j : ℕ) (hj : j ≠ id)
    (l : List Broadcast) :
    acceptedRowsFor (settleBroadcasts id techId l) j = acceptedRowsFor l j := by
  induction l with
  | nil => rfl
  | cons x t ih =>
    rw [settle_cons]
    simp only [acceptedRowsFor] at ih ⊢
    by_cases hP : (x.bookingId == id && x.technicianId == techId) = true
    · have hb : x.bookingId = id := by
        have := hP; simp only [Bool.and_eq_true, beq_iff_eq] at this; exact this.1
      have hbj : (x.bookingId == j) = false := by simp [hb, Ne.symm hj]
      have htail := expireOthers_accepted_other_jobs id techId j hj t
      simp only [acceptedRowsFor] at htail
      rw [if_pos hP]
      simp [List.filter_cons, hbj, htail]
    · rw [if_neg hP]
      by_cases hQ : (x.bookingId == id && x.technicianId != techId) = true
      · have hb : x.bookingId = id := by
          have := hQ; simp only [Bool.and_eq_true, beq_iff_eq] at this; exact this.1
        have hbj : (x.bookingId == j) = false := by simp [hb, Ne.symm hj]
        simp [List.filter_cons, hQ, hbj, ih]
      · simp [List.filter_cons, hQ, ih]

theorem respondToJob_success_eq (db : DB) (id techId now : ℕ)
    (status response : Option String) (b : Booking)
    (hBusy : db.bookings.find? (busyPred techId) = none)
    (hbr : ∃ br, db.broadcasts.find? (offerPred id techId) = some br)
    (hact : ¬(finalStatusOf status response ≠ "accepted" ∧
        finalStatusOf status response ≠ "accept"))
    (hopen : db.bookings.find? (openForAssign id) = some b) :
    respondToJob db id techId status response now =
      (.accepted (assignBooking techId now b) (losersOf id techId db.broadcasts),
       { db with
          bookings := updateFirst (openForAssign id) (assignBooking techId now) db.bookings,
          broadcasts := settleBroadcasts id techId db.broadcasts }) := by
  obtain ⟨br, hbr⟩ := hbr
  simp only [respondToJob, hBusy, hbr, hopen, if_neg hact]

/-! ## Claim theorems -/

/-- C1: for every call to `respondToJob(jobId, technicianId, action=accept)`
that reaches the atomic step (the busy check and the sent-broadcast check
passed), the job is assigned if and only if the single conditional update
matches a booking whose status is requested or broadcasted and whose
assigned technician is unset; on success the status becomes accepted, the
assigned technician becomes the caller and `assignedAt` is set; when the
conditional update matches no record the caller receives the distinct
already-taken conflict (HTTP 409) and the store is unchanged. -/
theorem C1_atomic_conditional_assignment (db : DB) (id techId now : ℕ)
    (hBusy : db.bookings.find? (busyPred techId) = none)
    (hOffer : ∃ br, db.broadcasts.find? (offerPred id techId) = some br) :
    (∀ b, db.bookings.find? (openForAssign id) = some b →
      (b.status = .requested ∨ b.status = .broadcasted) ∧ b.technicianId = none ∧
      respondToJob db id techId (some "accept") none now =
        (.accepted (assignBooking techId now b) (losersOf id techId db.broadcasts),
         { db with
            bookings := updateFirst (openForAssign id) (assignBooking techId now) db.bookings,
            broadcasts := settleBroadcasts id techId db.broadcasts }) ∧
      (assignBooking techId now b).status = .accepted ∧
      (assignBooking techId now b).technicianId = some techId ∧
      (assignBooking techId now b).assignedAt = some now) ∧
    (db.bookings.find? (openForAssign id) = none →
      respondToJob db id techId (some "accept") none now = (.alreadyTaken, db) ∧
      RespondResult.alreadyTaken.http = 409) := by
  have hact : ¬(finalStatusOf (some "accept") none ≠ "accepted" ∧
      finalStatusOf (some "accept") none ≠ "accept") := by
    rw [finalStatus_accept]; simp
  constructor
  · intro b hb
    have hcond := List.find?_some hb
    simp only [openForAssign, Bool.and_eq_true, Bool.or_eq_true, beq_iff_eq] at hcond
    exact ⟨hcond.1.2, hcond.2,
      respondToJob_success_eq db id techId now (some "accept") none b hBusy hOffer hact hb,
      rfl, rfl, rfl⟩
  · intro hnone
    obtain ⟨br, hbr⟩ := hOffer
    refine ⟨?_, rfl⟩
    simp only [respondToJob, hBusy, hbr, hnone, if_neg hact]

/-- Witness for C1 at a concrete store: technician 7 accepts the open
booking 1 it was offered. -/
theorem C1_atomic_conditional_assignment_witness :
    respondToJob db0 1 7 (some "accept") none 5 =
      (.accepted (assignBooking 7 5 bk0) (losersOf 1 7 db0.broadcasts),
       { db0 with
          bookings := updateFirst (openForAssign 1) (assignBooking 7 5) db0.bookings,
          broadcasts := settleBroadcasts 1 7 db0.broadcasts }) :=
  ((C1_atomic_conditional_assignment db0 1 7 5 (by decide)
      ⟨⟨1, 7, .sent⟩, by decide⟩).1 bk0 (by decide)).2.2.1

/-- C2: after a successful accept of job `id` by technician `techId`
(preconditions passed, valid action, conditional update matched), the
ledger holds exactly one accepted row for the job — the row of the
winning technician — no row of the job remains sent, every row of the
job held by another technician is expired, and at most one accepted row
per job holds globally (given that held before and the winner pair had
at most one ledger row, the per-pair idempotence invariant). -/
theorem C2_single_accepted_row (db : DB) (id techId now : ℕ) (b : Booking)
    (status response : Option String)
    (hBusy : db.bookings.find? (busyPred techId) = none)
    (hOffer : ∃ br, db.broadcasts.find? (offerPred id techId) = some br)
    (hact : ¬(finalStatusOf status response ≠ "accepted" ∧
        finalStatusOf status response ≠ "accept"))
    (hOpen : db.bookings.find? (openForAssign id) = some b)
    (hUniq : (pairRows db.broadcasts id techId).length ≤ 1)
    (hInv : ∀ j, (acceptedRowsFor db.broadcasts j).length ≤ 1) :
    acceptedRowsFor (respondToJob db id techId status response now).2.broadcasts id
        = [⟨id, techId, .accepted⟩] ∧
    (∀ br ∈ (respondToJob db id techId status response now).2.broadcasts,
        br.bookingId = id → br.status ≠ .sent) ∧
    (∀ br ∈ (respondToJob db id techId status response now).2.broadcasts,
        br.bookingId = id → br.technicianId ≠ techId → br.status = .expired) ∧
    (∀ j, (acceptedRowsFor
        (respondToJob db id techId status response now).2.broadcasts j).length ≤ 1) := by
  have heq := respondToJob_success_eq db id techId now status response b hBusy hOffer hact hOpen
  obtain ⟨br, hbr⟩ := hOffer
  have hmem : br ∈ db.broadcasts := List.mem_of_find?_eq_some hbr
  have hoff : offerPred id techId br = true := List.find?_some hbr
  simp only [offerPred, Bool.and_eq_true] at hoff
  have hP : (br.bookingId == id && br.technicianId == techId) = true := by
    simp [hoff.1.1, hoff.1.2]
  have hEx : ∃ x ∈ db.broadcasts,
      (x.bookingId == id && x.technicianId == techId) = true := ⟨br, hmem, hP⟩
  have hUniq' : (db.broadcasts.filter fun br =>
      br.bookingId == id && br.technicianId == techId).length ≤ 1 := by
    simpa [pairRows] using hUniq
  rw [heq]
  refine ⟨settle_accepted_pair id techId db.broadcasts hEx hUniq',
    settle_no_sent id techId db.broadcasts hUniq',
    settle_others_expired id techId db.broadcasts, ?_⟩
  intro j
  show (acceptedRowsFor (settleBroadcasts id techId db.broadcasts) j).length ≤ 1
  by_cases hj : j = id
  · rw [hj, settle_accepted_pair id techId db.broadcasts hEx hUniq']
    simp
  · rw [settle_accepted_other_jobs id techId j hj db.broadcasts]
    exact hInv j

/-- Witness for C2 at a concrete store: booking 1 was offered to
technicians 7 and 8; technician 7 accepts, the row of 7 is the single
accepted row and the row of 8 expires. -/
theorem C2_single_accepted_row_witness :
    acceptedRowsFor (respondToJob dbC2 1 7 (some "accept") none 5).2.broadcasts 1 =
      [⟨1, 7, .accepted⟩] := by
  have h := C2_single_accepted_row dbC2 1 7 5 bk0 (some "accept") none
    (by decide) ⟨⟨1, 7, .sent⟩, by decide⟩
    (by rw [finalStatus_accept]; simp) (by decide) (by decide)
    (by intro j; simp [acceptedRowsFor, dbC2])
  exact h.1

/-- C3: the multi-step accept mutation is all-or-nothing.  Whichever store
operation fails (`failAt` numbering every operation of the transactional
scope, including the commit, plus the post-commit notification), the
observable store is either exactly the input store (abort) or exactly the
fully committed store of the fault-free run — never a partial mixture
such as an assigned job with an unsettled broadcast ledger. -/
theorem C3_accept_all_or_nothing (db : DB) (id techId : ℕ)
    (status response : Option String) (now : ℕ) (failAt : Option ℕ) :
    (respondToJobAt db id techId status response now failAt).2 = db ∨
    (respondToJobAt db id techId status response now failAt).2 =
      (respondToJob db id techId status response now).2 := by
  by_cases h0 : failAt = some 0
  · left; simp [respondToJobAt, h0]
  · cases hb : db.bookings.find? (busyPred techId) with
    | some x => left; simp [respondToJobAt, h0, hb]
    | none =>
      by_cases h1 : failAt = some 1
      · left; simp [respondToJobAt, h0, hb, h1]
      · cases hbr : db.broadcasts.find? (offerPred id techId) with
        | none => left; simp [respondToJobAt, h0, hb, h1, hbr]
        | some br =>
          by_cases hact : (finalStatusOf status response ≠ "accepted" ∧
              finalStatusOf status response ≠ "accept")
          · left; simp [respondToJobAt, h0, hb, h1, hbr, hact]
          · by_cases h2 : failAt = some 2
            · left; simp [respondToJobAt, h0, hb, h1, hbr, hact, h2]
            · cases hopen : db.bookings.find? (openForAssign id) with
              | none => left; simp [respondToJobAt, h0, hb, h1, hbr, hact, h2, hopen]
              | some b =>
                by_cases h3 : failAt = some 3
                · left; simp [respondToJobAt, h0, hb, h1, hbr, hact, h2, hopen, h3]
                · by_cases h4 : failAt = some 4
                  · left; simp [respondToJobAt, h0, hb, h1, hbr, hact, h2, hopen, h3, h4]
                  · by_cases h5 : failAt = some 5
                    · left
                      simp [respondToJobAt, h0, hb, h1, hbr, hact, h2, hopen, h3, h4, h5]
                    · by_cases h6 : failAt = some 6
                      · left
                        simp [respondToJobAt, h0, hb, h1, hbr, hact, h2, hopen, h3, h4,
                          h5, h6]
                      · right
                        by_cases h7 : failAt = some 7 <;>
                          simp [respondToJobAt, respondToJob, h0, hb, h1, hbr, hact, h2,
                            hopen, h3, h4, h5, h6, h7]

/-- C4 counterexample: no eligibility check precedes the atomic step of
`respondToJob`.  In `db4` technician 7 is not approved and offline, not
busy, and holds a sent broadcast for booking 1; the claim predicts an
ineligible-conflict rejection leaving the store unchanged, but the code
assigns the booking to the ineligible technician. -/
theorem C4_no_ineligible_rejection :
    db4.technicians = [techBad] ∧
    techBad.workStatus ≠ .approved ∧ techBad.isOnline = false ∧
    db4.bookings.find? (busyPred 7) = none ∧
    db4.broadcasts.find? (offerPred 1 7) = some ⟨1, 7, .sent⟩ ∧
    (respondToJob db4 1 7 (some "accept") none 5).1 =
      .accepted ⟨1, .accepted, some 7, some 5, none⟩ [] ∧
    (respondToJob db4 1 7 (some "accept") none 5).2 ≠ db4 := by
  decide

/-- C4 amended: the preconditions checked by `respondToJob` before the
atomic step, in order, are (1) the technician has a job in an active
state → busy conflict (HTTP 409); (2) no sent broadcast exists for
(job, technician) → not-offered conflict (HTTP 403); (3) the action is
neither accepted nor accept → invalid-status (HTTP 400); each rejection
leaves the store unchanged.  No technician-eligibility check is
performed before the atomic step. -/
theorem C4_precondition_order (db : DB) (id techId : ℕ)
    (status response : Option String) (now : ℕ) :
    (∀ j, db.bookings.find? (busyPred techId) = some j →
      respondToJob db id techId status response now = (.busy, db) ∧
      RespondResult.busy.http = 409) ∧
    (db.bookings.find? (busyPred techId) = none →
      db.broadcasts.find? (offerPred id techId) = none →
      respondToJob db id techId status response now = (.notOffered, db) ∧
      RespondResult.notOffered.http = 403) ∧
    (∀ br, db.bookings.find? (busyPred techId) = none →
      db.broadcasts.find? (offerPred id techId) = some br →
      finalStatusOf status response ≠ "accepted" →
      finalStatusOf status response ≠ "accept" →
      respondToJob db id techId status response now = (.invalidStatus, db) ∧
      RespondResult.invalidStatus.http = 400) := by
  refine ⟨?_, ?_, ?_⟩
  · intro j hj
    exact ⟨by simp [respondToJob, hj], rfl⟩
  · intro hb hbr
    exact ⟨by simp [respondToJob, hb, hbr], rfl⟩
  · intro br hb hbr h1 h2
    refine ⟨?_, rfl⟩
    simp only [respondToJob, hb, hbr]
    rw [if_pos ⟨h1, h2⟩]

/-- Witness for the amended C4: each precondition rejection observed at a
concrete store. -/
theorem C4_precondition_order_witness :
    respondToJob dbBusy 1 7 (some "accept") none 5 = (.busy, dbBusy) ∧
    respondToJob dbNoOffer 1 7 (some "accept") none 5 = (.notOffered, dbNoOffer) ∧
    respondToJob db0 1 7 (some "reject") none 5 = (.invalidStatus, db0) :=
  ⟨((C4_precondition_order dbBusy 1 7 (some "accept") none 5).1 bkBusy (by decide)).1,
   ((C4_precondition_order dbNoOffer 1 7 (some "accept") none 5).2.1
      (by decide) (by decide)).1,
   ((C4_precondition_order db0 1 7 (some "reject") none 5).2.2 ⟨1, 7, .sent⟩
      (by decide) (by decide) (by decide) (by decide)).1⟩

theorem myJobsGeoOk_iff (dist : GeoPoint → GeoPoint → ℚ)
    (techLoc : Option GeoPoint) (b : Booking) :
    myJobsGeoOk dist techLoc b = true ↔
      techLoc = none ∨ b.location = none ∨
      ∃ c l, techLoc = some c ∧ b.location = some l ∧
        dist c l ≤ myJobsRadiusRadians := by
  cases techLoc with
  | none => simp [myJobsGeoOk]
  | some c =>
    cases hb : b.location with
    | none => simp [myJobsGeoOk, hb]
    | some l => simp [myJobsGeoOk, hb]

/-- C5 counterexample: candidate selection does not return requested
jobs.  In `dbC5` booking 2 has status requested, is unassigned, was
broadcast to technician 7, and lies at distance zero from the
technician, yet both selectors return the empty list, while the claim
predicts the job is returned. -/
theorem C5_requested_jobs_excluded :
    bkReq.status = .requested ∧ bkReq.technicianId = none ∧
    dbC5.bookings = [bkReq] ∧
    dbC5.broadcasts.find? (offerPred 2 7) = some ⟨2, 7, .sent⟩ ∧
    dist0 ⟨0, 0⟩ ⟨0, 0⟩ = 0 ∧
    getMyJobsSelect dist0 dbC5 7 = [] ∧
    getNearbyJobsSelect dist0 dbC5 7 ⟨0, 0⟩ none = [] := by
  refine ⟨rfl, rfl, rfl, rfl, rfl, ?_, ?_⟩
  · simp [getMyJobsSelect, dbC5, bkReq, sentBookingIds]
  · simp [getNearbyJobsSelect, dbC5, bkReq, sentBookingIds]

/-- C5 amended: `getMyJobs` returns exactly the bookings with a sent
broadcast to the technician whose status is broadcasted (requested jobs
are excluded), that are unassigned and pass the 10 km spherical geo
filter — bookings lacking a location pass unconditionally, and no geo
filter applies when the technician has no stored point.  `getNearbyJobs`
returns exactly the broadcast bookings with status broadcasted,
unassigned, that carry a location within the search radius; bookings
without a location are never returned by it. -/
theorem C5_selection_membership (dist : GeoPoint → GeoPoint → ℚ) (db : DB)
    (techId : ℕ) (posn : GeoPoint) (radius : Option ℚ) (b : Booking) :
    (b ∈ getMyJobsSelect dist db techId ↔
      b ∈ db.bookings ∧ b.id ∈ sentBookingIds db techId ∧
      b.status = .broadcasted ∧ b.technicianId = none ∧
      (storedLocation db techId = none ∨ b.location = none ∨
        ∃ c l, storedLocation db techId = some c ∧ b.location = some l ∧
          dist c l ≤ myJobsRadiusRadians)) ∧
    (b ∈ getNearbyJobsSelect dist db techId posn radius ↔
      b ∈ db.bookings ∧ b.id ∈ sentBookingIds db techId ∧
      b.status = .broadcasted ∧ b.technicianId = none ∧
      ∃ l, b.location = some l ∧
        dist posn l ≤ metersToRadians (nearbyMaxDist radius)) := by
  constructor
  · rw [getMyJobsSelect, List.mem_filter]
    simp only [Bool.and_eq_true, beq_iff_eq, List.contains, List.elem_iff,
      myJobsGeoOk_iff]
    tauto
  · rw [getNearbyJobsSelect]
    by_cases hempty : (sentBookingIds db techId).isEmpty = true
    · rw [if_pos hempty]
      have : sentBookingIds db techId = [] := List.isEmpty_iff.mp hempty
      simp [this]
    · rw [if_neg hempty, List.mem_filter]
      cases hloc : b.location with
      | none =>
        simp only [hloc, Bool.false_and, Bool.and_eq_true]
        simp
      | some l =>
        simp only [hloc, Bool.and_eq_true, beq_iff_eq, List.contains, List.elem_iff,
          decide_eq_true_eq]
        constructor
        · rintro ⟨hmem, ⟨⟨⟨hd, hid⟩, hst⟩, htid⟩⟩
          exact ⟨hmem, hid, hst, htid, l, rfl, hd⟩
        · rintro ⟨hmem, hid, hst, htid, l2, hl2, hd⟩
          obtain rfl : l = l2 := by injection hl2
          exact ⟨hmem, ⟨⟨⟨hd, hid⟩, hst⟩, htid⟩⟩

/-- C6: `recordBroadcast` is idempotent per (job, technician).  Invoking
it twice — in particular re-invoking it when a sent row already exists —
yields exactly one sent ledger row for the pair and the same store,
given the ledger held at most one sent row for the pair beforehand. -/
theorem C6_recordBroadcast_idempotent (db : DB) (j t : ℕ)
    (hUniq : sentCount db j t ≤ 1) :
    recordBroadcast (recordBroadcast db j t) j t = recordBroadcast db j t ∧
    sentCount (recordBroadcast (recordBroadcast db j t) j t) j t = 1 := by
  by_cases h : (db.broadcasts.any fun br =>
      br.bookingId == j && br.technicianId == t && br.status == .sent) = true
  · have h1 : recordBroadcast db j t = db := by simp [recordBroadcast, h]
    refine ⟨by rw [h1, h1], ?_⟩
    rw [h1, h1]
    obtain ⟨x, hx, hpx⟩ := List.any_eq_true.mp h
    have hmem : x ∈ db.broadcasts.filter (fun br =>
        br.bookingId == j && br.technicianId == t && br.status == .sent) :=
      List.mem_filter.mpr ⟨hx, hpx⟩
    have hpos := List.length_pos.mpr (List.ne_nil_of_mem hmem)
    unfold sentCount at hUniq ⊢
    omega
  · have h1 : recordBroadcast db j t =
        { db with broadcasts := db.broadcasts ++ [⟨j, t, .sent⟩] } := by
      simp [recordBroadcast, h]
    have hanyf : (db.broadcasts.any fun br =>
        br.bookingId == j && br.technicianId == t && br.status == .sent) = false := by
      cases hv : (db.broadcasts.any fun br =>
          br.bookingId == j && br.technicianId == t && br.status == .sent)
      · rfl
      · exact absurd hv h
    have hfil : db.broadcasts.filter (fun br =>
        br.bookingId == j && br.technicianId == t && br.status == .sent) = [] := by
      rw [List.filter_eq_nil_iff]
      exact List.any_eq_false.mp hanyf
    have h2 : sentCount (recordBroadcast db j t) j t = 1 := by
      rw [h1]
      unfold sentCount
      simp only [List.filter_append, hfil]
      simp
    have hany2 : ((recordBroadcast db j t).broadcasts.any fun br =>
        br.bookingId == j && br.technicianId == t && br.status == .sent) = true := by
      rw [h1]
      simp
    have h3 : recordBroadcast (recordBroadcast db j t) j t = recordBroadcast db j t := by
      rw [recordBroadcast, if_pos hany2]
    exact ⟨h3, by rw [h3]; exact h2⟩

/-- Witness for C6 at a concrete store where a sent row already exists
for the pair. -/
theorem C6_recordBroadcast_idempotent_witness :
    recordBroadcast (recordBroadcast db0 1 7) 1 7 = recordBroadcast db0 1 7 ∧
    sentCount (recordBroadcast (recordBroadcast db0 1 7) 1 7) 1 7 = 1 :=
  C6_recordBroadcast_idempotent db0 1 7 (by decide)

/-- C7: `availability.isOnline` can only be set to true when, at the
moment of the request, training is completed, the work status equals
approved and the KYC record is approved; a go-online attempt violating
any of these is rejected and the store — hence the stored flag — is
unchanged, so a flag that was false stays false. -/
theorem C7_online_guard (db : DB) (techId : ℕ) :
    (∀ db2, setOnlineRequest db techId true = (.ok, db2) →
      ∃ tech, db.technicians.find? (fun t => t.id == techId) = some tech ∧
        tech.trainingCompleted = true ∧ tech.workStatus = .approved ∧
        (∃ kyc, db.kycs.find? (fun k => k.technicianId == techId) = some kyc ∧
          kyc.verificationStatus = .approved) ∧
        db2 = { db with technicians := updateFirst (fun t => t.id == techId) (fun t => { t with isOnline := true }) db.technicians }) ∧
    (∀ tech, db.technicians.find? (fun t => t.id == techId) = some tech →
      (tech.trainingCompleted = false ∨ tech.workStatus ≠ .approved ∨
        db.kycs.find? (fun k => k.technicianId == techId) = none ∨
        (∃ kyc, db.kycs.find? (fun k => k.technicianId == techId) = some kyc ∧
          kyc.verificationStatus ≠ .approved)) →
      ∃ msg, setOnlineRequest db techId true = (.rejected msg, db)) := by
  constructor
  · intro db2 h
    cases hfind : db.technicians.find? (fun t => t.id == techId) with
    | none => simp [setOnlineRequest, hfind] at h
    | some tech =>
      by_cases h1 : tech.trainingCompleted
      · by_cases h2 : tech.workStatus = .approved
        · cases hk : db.kycs.find? (fun k => k.technicianId == techId) with
          | none => simp [setOnlineRequest, hfind, h1, h2, hk] at h
          | some kyc =>
            by_cases h3 : kyc.verificationStatus = .approved
            · refine ⟨tech, rfl, h1, h2, ⟨kyc, rfl, h3⟩, ?_⟩
              simp [setOnlineRequest, hfind, h1, h2, hk, h3] at h
              exact h.symm
            · simp [setOnlineRequest, hfind, h1, h2, hk, h3] at h
        · simp [setOnlineRequest, hfind, h1, h2] at h
      · simp [setOnlineRequest, hfind, h1] at h
  · intro tech hfind hbad
    by_cases h1 : tech.trainingCompleted
    · by_cases h2 : tech.workStatus = .approved
      · cases hk : db.kycs.find? (fun k => k.technicianId == techId) with
        | none =>
          exact ⟨"Your KYC must be approved before going online.",
            by simp [setOnlineRequest, hfind, h1, h2, hk]⟩
        | some kyc =>
          by_cases h3 : kyc.verificationStatus = .approved
          · exfalso
            rcases hbad with hb | hb | hb | ⟨kyc2, hk2, hne⟩
            · simp [h1] at hb
            · exact hb h2
            · rw [hk] at hb; cases hb
            · rw [hk] at hk2
              injection hk2 with he
              exact hne (he ▸ h3)
          · exact ⟨"Your KYC must be approved before going online.",
              by simp [setOnlineRequest, hfind, h1, h2, hk, h3]⟩
      · exact ⟨"Only approved technicians can go online.",
          by simp [setOnlineRequest, hfind, h1, h2]⟩
    · exact ⟨"Training must be completed before going online.",
        by simp [setOnlineRequest, hfind, h1]⟩

/-- Witness for C7: the eligible technician of `dbC7` goes online, and
the ineligible technician of `dbC7b` is rejected with the store
unchanged. -/
theorem C7_online_guard_witness :
    (∃ tech, dbC7.technicians.find? (fun t => t.id == 7) = some tech ∧
      tech.trainingCompleted = true ∧ tech.workStatus = .approved ∧
      (∃ kyc, dbC7.kycs.find? (fun k => k.technicianId == 7) = some kyc ∧
        kyc.verificationStatus = .approved) ∧
      dbC7on = { dbC7 with technicians := updateFirst (fun t => t.id == 7) (fun t => { t with isOnline := true }) dbC7.technicians }) ∧
    (∃ msg, setOnlineRequest dbC7b 7 true = (.rejected msg, dbC7b)) :=
  ⟨(C7_online_guard dbC7 7).1 dbC7on (by decide),
   (C7_online_guard dbC7b 7).2 techBad (by decide) (Or.inl (by decide))⟩

/-- C8: `getNearbyJobs` resolves the search point in this order: explicit
finite latitude/longitude when both are supplied; otherwise the stored
point of the technician (GeoJSON order, longitude first); when neither is
available the operation fails with the location-unknown error and HTTP
status 400 instead of guessing a position. -/
theorem C8_location_resolution (db : DB) (techId : ℕ)
    (latitude longitude : Option ℚ) :
    (∀ la ln, latitude = some la → longitude = some ln →
      resolveNearbyLocation db techId latitude longitude = .ok ⟨ln, la⟩) ∧
    ((latitude = none ∨ longitude = none) →
      ∀ loc, storedLocation db techId = some loc →
        resolveNearbyLocation db techId latitude longitude = .ok loc) ∧
    ((latitude = none ∨ longitude = none) →
      storedLocation db techId = none →
      resolveNearbyLocation db techId latitude longitude = .error (400,
        "Location not found. Please provide latitude/longitude or update your profile location.")) := by
  refine ⟨?_, ?_, ?_⟩
  · intro la ln h1 h2
    subst h1; subst h2
    rfl
  · rintro (h | h) loc hloc <;> subst h
    · cases longitude <;> simp [resolveNearbyLocation, hloc]
    · cases latitude <;> simp [resolveNearbyLocation, hloc]
  · rintro (h | h) hloc <;> subst h
    · cases longitude <;> simp [resolveNearbyLocation, hloc]
    · cases latitude <;> simp [resolveNearbyLocation, hloc]

/-- Witness for C8: the three resolution outcomes at concrete stores. -/
theorem C8_location_resolution_witness :
    resolveNearbyLocation dbC5 7 (some 1) (some 2) = .ok ⟨2, 1⟩ ∧
    resolveNearbyLocation dbC5 7 none (some 2) = .ok ⟨0, 0⟩ ∧
    resolveNearbyLocation db4 7 none none = .error (400,
      "Location not found. Please provide latitude/longitude or update your profile location.") :=
  ⟨(C8_location_resolution dbC5 7 (some 1) (some 2)).1 1 2 rfl rfl,
   (C8_location_resolution dbC5 7 none (some 2)).2.1 (Or.inl rfl) ⟨0, 0⟩ rfl,
   (C8_location_resolution db4 7 none none).2.2 (Or.inl rfl) rfl⟩

/-- C9: the `getNearbyJobs` radius defaults to 20000 meters (20 km) when
the caller supplies none, while the passive `getMyJobs` feed uses the
fixed smaller 10 km radius; in both cases the radius in radians is the
radius in meters divided by the Earth radius constant 6378100. -/
theorem C9_radius_constants :
    nearbyMaxDist none = 20000 ∧ (∀ r, nearbyMaxDist (some r) = r) ∧
    myJobsRadiusRadians = 10000 / 6378100 ∧
    myJobsRadiusRadians = metersToRadians 10000 ∧
    metersToRadians 20000 = 20000 / 6378100 ∧
    myJobsRadiusRadians < metersToRadians 20000 := by
  refine ⟨rfl, fun r => rfl, rfl, rfl, rfl, ?_⟩
  norm_num [myJobsRadiusRadians, metersToRadians]

/-- C10 counterexample: revoking training through the administrative
`updateTechnicianStatus` operation does not force the technician
offline.  In `dbT` technician 7 is online with training completed;
after `updateTechnicianStatus(trainingCompleted = false)` the stored
technician has `trainingCompleted = false` yet `isOnline = true`,
while the claim predicts every administrative revocation of an
eligibility condition forces the technician offline. -/
theorem C10_training_revocation_leaves_online :
    (updateTechnicianStatus dbT 7 (some false) none).1 = .ok ∧
    (updateTechnicianStatus dbT 7 (some false) none).2.technicians.find?
        (fun t => t.id == 7) = some ⟨7, .approved, false, true, none⟩ ∧
    (⟨7, .approved, false, true, none⟩ : Technician).trainingCompleted = false ∧
    (⟨7, .approved, false, true, none⟩ : Technician).isOnline = true := by
  decide

/-- C10 amended: `updateTechnicianStatus` with `workStatus = suspended`
forces `isOnline = false` in the same operation, and
`updateTechnicianTraining` with `trainingCompleted = false` forces
`isOnline = false`; but `updateTechnicianStatus` with
`trainingCompleted = false` leaves `isOnline` unchanged, so that path
can leave a technician online after losing the training condition. -/
theorem C10_forced_offline_paths (db : DB) (techId : ℕ) :
    (∀ tc tech, db.technicians.find? (fun t => t.id == techId) = some tech →
      ∃ t2, (updateTechnicianStatus db techId tc (some .suspended)).2.technicians =
          updateFirst (fun t => t.id == techId) (fun _ => t2) db.technicians ∧
        t2.isOnline = false ∧ t2.workStatus = .suspended) ∧
    (∀ tech, db.technicians.find? (fun t => t.id == techId) = some tech →
      ∃ t2, (updateTechnicianTraining db techId false).2.technicians =
          updateFirst (fun t => t.id == techId) (fun _ => t2) db.technicians ∧
        t2.isOnline = false ∧ t2.trainingCompleted = false) ∧
    (∀ tech, db.technicians.find? (fun t => t.id == techId) = some tech →
      ∃ t2, (updateTechnicianStatus db techId (some false) none).2.technicians =
          updateFirst (fun t => t.id == techId) (fun _ => t2) db.technicians ∧
        t2.isOnline = tech.isOnline ∧ t2.trainingCompleted = false) := by
  refine ⟨?_, ?_, ?_⟩
  · intro tc tech hfind
    cases tc with
    | none =>
      refine ⟨{ tech with workStatus := .suspended, isOnline := false }, ?_, rfl, rfl⟩
      simp [updateTechnicianStatus, hfind]
    | some v =>
      cases v with
      | false =>
        refine ⟨{ tech with trainingCompleted := false, workStatus := .suspended, isOnline := false }, ?_, rfl, rfl⟩
        simp [updateTechnicianStatus, hfind]
      | true =>
        refine ⟨{ tech with trainingCompleted := true, workStatus := .suspended, isOnline := false }, ?_, rfl, rfl⟩
        simp [updateTechnicianStatus, hfind]
  · intro tech hfind
    by_cases ho : tech.isOnline
    · refine ⟨{ tech with trainingCompleted := false, isOnline := false }, ?_, rfl, rfl⟩
      simp [updateTechnicianTraining, hfind, ho]
    · refine ⟨{ tech with trainingCompleted := false }, ?_, ?_, rfl⟩
      · simp [updateTechnicianTraining, hfind, ho]
      · simpa using ho
  · intro tech hfind
    refine ⟨{ tech with trainingCompleted := false }, ?_, rfl, rfl⟩
    simp [updateTechnicianStatus, hfind]

/-- Witness for the amended C10 at a concrete store. -/
theorem C10_forced_offline_paths_witness :
    (∃ t2, (updateTechnicianStatus dbT 7 none (some .suspended)).2.technicians =
        updateFirst (fun t => t.id == 7) (fun _ => t2) dbT.technicians ∧
      t2.isOnline = false ∧ t2.workStatus = .suspended) ∧
    (∃ t2, (updateTechnicianTraining dbT 7 false).2.technicians =
        updateFirst (fun t => t.id == 7) (fun _ => t2) dbT.technicians ∧
      t2.isOnline = false ∧ t2.trainingCompleted = false) ∧
    (∃ t2, (updateTechnicianStatus dbT 7 (some false) none).2.technicians =
        updateFirst (fun t => t.id == 7) (fun _ => t2) dbT.technicians ∧
      t2.isOnline = (⟨7, .approved, true, true, none⟩ : Technician).isOnline ∧
      t2.trainingCompleted = false) :=
  ⟨(C10_forced_offline_paths dbT 7).1 none ⟨7, .approved, true, true, none⟩ rfl,
   (C10_forced_offline_paths dbT 7).2.1 ⟨7, .approved, true, true, none⟩ rfl,
   (C10_forced_offline_paths dbT 7).2.2 ⟨7, .approved, true, true, none⟩ rfl⟩
